import Mathlib

/-!
Verification of the strategy-screening workflow (`work_flow.py`).

The development shallowly embeds the module's pure logic:
dates are `Nat` ordinals, percent changes are `ℚ`, Python values that can be
either strings or tuples are the inductive `PyVal`, code that can raise is
modelled in `Except Unit`, and every `push.*` call is recorded as a `Msg`
value in the returned message list.
-/

namespace WorkFlow

/-- One row of an instrument's historical series; only the date field
(`日期`) is inspected by the workflow itself. -/
structure DailyBar where
  date : Nat
  deriving Repr, DecidableEq

/-- One row of the live market snapshot (`ak.stock_zh_a_spot_em()`):
code `代码`, display name `名称`, percent change `涨跌幅`. -/
structure SnapshotRow where
  code : String
  name : String
  pctChange : ℚ
  deriving Repr, DecidableEq

/-- A strategy check: `(code, series, end_date) -> bool`.  Strategy
implementations live outside the module and are treated as opaque total
predicates. -/
abbrev StrategyFun := String → List DailyBar → Option Nat → Bool

/-- Modelled from the spec: `data_fetcher.run`, which builds `stocks_data`,
is not part of the sources here; the specification hands the screening
engine `series_by_code`, a mapping from instrument code to its daily-bar
series, so `stocks_data` is modelled as keyed by the code string. -/
abbrev StocksData := List (String × List DailyBar)

/-- The distinct strategy implementations imported by `work_flow.py`;
they are external, so only their identities matter here. -/
inductive StrategyImpl where
  | enter_check_volume
  | keep_increasing_check
  | parking_apron_check
  | backtrace_ma250_check
  | breakthrough_platform_check
  | low_backtrace_increase_check
  | turtle_trade_check_enter
  | high_tight_flag_check
  | climax_limitdown_check
  deriving Repr, DecidableEq

/-- A Python value that is either a string or a tuple of values; this is
the input shape `classify_by_exchange` has to cope with. -/
inductive PyVal where
  | str (s : String)
  | tup (elems : List PyVal)

/-- Python `len` on strings and tuples. -/
def pyLen : PyVal → Nat
  | .str s => s.length
  | .tup es => es.length

/-- The four exchange buckets built by `classify_by_exchange`. -/
structure Classified where
  shanghai : List String
  shenzhen : List String
  beijing : List String
  star : List String
  deriving Repr, DecidableEq

/-- The `classified` dictionary as initialised: four empty buckets. -/
def emptyClassified : Classified :=
  { shanghai := [], shenzhen := [], beijing := [], star := [] }

/-- A message handed to `push.strategy` / `push.statistics`, kept
structured rather than formatted. -/
inductive Msg where
  | strategyAlert (strategy : String) (codes : List String)
  | classification (signal : String) (buckets : Classified)
  | notExist (signal : String)
  | stats (limitup limitdown up5 down5 : Nat)
  deriving Repr, DecidableEq

/-- Python `pre.isPrefixOf s` on character lists: the semantics of
`str.startswith`. -/
def charsStartWith : List Char → List Char → Bool
  | [], _ => true
  | _ :: _, [] => false
  | p :: ps, c :: cs => p == c && charsStartWith ps cs

/-- Python `s.startswith(pre)` for strings. -/
def pyStartswith (s : String) (pre : String) : Bool :=
  charsStartWith pre.data s.data

/-- Membership of a string in a list, the Boolean behind Python's set
operations on result lists. -/
def strMem (c : String) : List String → Bool
  | [] => false
  | x :: xs => x == c || strMem c xs

/-- Python `d.get(k, [])` on the `strategy_results` dictionary: a missing
strategy name yields the empty list. -/
def dictGet (m : List (String × List String)) (k : String) : List String :=
  match m with
  | [] => []
  | p :: rest => if p.1 == k then p.2 else dictGet rest k

/-- Python `d[k] = v` on a dict modelled as an association list: replace
the value of an existing key in place, append a fresh key at the end. -/
def dictSet (m : List (String × StrategyImpl)) (k : String) (v : StrategyImpl) :
    List (String × StrategyImpl) :=
  match m with
  | [] => [(k, v)]
  | p :: rest => if p.1 == k then (k, v) :: rest else p :: dictSet rest k v

/-- The inner closure of `check_enter` (`end_date_filter`): with a cutoff
set, a stock whose first bar is dated strictly after the cutoff is rejected
before the strategy runs; reading the first bar of an empty series raises
(`Except.error ()`), mirroring `iloc[0]` on an empty frame. -/
def end_date_filter (end_date : Option Nat) (strategy_fun : StrategyFun)
    (stock_data : String × List DailyBar) : Except Unit Bool :=
  match end_date with
  | some d =>
      match stock_data.2 with
      | [] => Except.error ()
      | bar :: _ =>
          if d < bar.date then Except.ok false
          else Except.ok (strategy_fun stock_data.1 stock_data.2 end_date)
  | none => Except.ok (strategy_fun stock_data.1 stock_data.2 end_date)

/-- Source `check_enter(end_date, strategy_fun)` returns the filter closure. -/
def check_enter (end_date : Option Nat) (strategy_fun : StrategyFun) :
    (String × List DailyBar) → Except Unit Bool :=
  end_date_filter end_date strategy_fun

/-- Python `filter` over dict items with a predicate that may raise. -/
def filterExcept {α : Type} (p : α → Except Unit Bool) : List α → Except Unit (List α)
  | [] => Except.ok []
  | x :: xs =>
      match p x with
      | Except.error e => Except.error e
      | Except.ok b =>
          match filterExcept p xs with
          | Except.error e => Except.error e
          | Except.ok rest => Except.ok (if b then x :: rest else rest)

/-- Source `check(stocks_data, strategy, strategy_func)`: filter the universe
through `check_enter`, alert once when the match set is non-empty, and
return the matched codes.  The ambient `settings.config` cutoff is threaded
explicitly as `end_date`. -/
def check (end_date : Option Nat) (stocks_data : StocksData)
    (strategy : String) (strategy_fun : StrategyFun) :
    Except Unit (List String × List Msg) :=
  match filterExcept (end_date_filter end_date strategy_fun) stocks_data with
  | Except.error e => Except.error e
  | Except.ok results =>
      if (results.map Prod.fst).length > 0 then
        Except.ok (results.map Prod.fst,
          [Msg.strategyAlert strategy (results.map Prod.fst)])
      else Except.ok (results.map Prod.fst, [])

/-- Source `strong_trend_signal`: 放量上涨 ∩ 均线多头 ∩ 突破平台 as a duplicate-free
list. -/
def strong_trend_signal (strategy_results : List (String × List String)) : List String :=
  ((dictGet strategy_results "放量上涨").dedup).filter
    (fun c => strMem c (dictGet strategy_results "均线多头") &&
      strMem c (dictGet strategy_results "突破平台"))

/-- Source `pullback_buy_signal`: 回踩年线 ∩ 均线多头 ∩ 无大幅回撤. -/
def pullback_buy_signal (strategy_results : List (String × List String)) : List String :=
  ((dictGet strategy_results "回踩年线").dedup).filter
    (fun c => strMem c (dictGet strategy_results "均线多头") &&
      strMem c (dictGet strategy_results "无大幅回撤"))

/-- Source `short_term_breakout_signal`: 放量上涨 ∩ 停机坪 ∩ 高而窄的旗形. -/
def short_term_breakout_signal (strategy_results : List (String × List String)) : List String :=
  ((dictGet strategy_results "放量上涨").dedup).filter
    (fun c => strMem c (dictGet strategy_results "停机坪") &&
      strMem c (dictGet strategy_results "高而窄的旗形"))

/-- The `if isinstance(stock_tuple, tuple) and len(stock_tuple) == 1 and
isinstance(stock_tuple[0], tuple)` step: a single-element tuple whose sole
element is itself a tuple is replaced by that inner tuple; everything else
passes through unchanged. -/
def unwrapEntry : PyVal → PyVal
  | .tup [PyVal.tup inner] => PyVal.tup inner
  | e => e

/-- Python tuple unpacking `a, b = v` for a value of length 2: a 2-tuple
splits into its components, a 2-character string into its characters. -/
def unpack2 : PyVal → PyVal × PyVal
  | .tup [a, b] => (a, b)
  | .str s => (.str (s.take 1), .str (s.drop 1))
  | _ => (.str "", .str "")

/-- Source `stock_info.get(stock_code, "未知名称")`: a non-string key or a code
absent from the snapshot resolves to the placeholder name. -/
def lookupName (stock_info : List (String × String)) : PyVal → String
  | .str s =>
      match stock_info.find? (fun p => p.1 == s) with
      | some p => p.2
      | none => "未知名称"
  | .tup _ => "未知名称"

/-- The prefix dispatch of `classify_by_exchange`, in source order:
`60` → 上交所 (shanghai), `00`/`30` → 深交所 (shenzhen), `8` → 北交所
(beijing), `68` → 科创板 (star); anything else is dropped. -/
def addToBucket (c : Classified) (code : String) (name : String) : Classified :=
  if pyStartswith code "60" then
    { c with shanghai := c.shanghai ++ [code ++ " (" ++ name ++ ")"] }
  else if pyStartswith code "00" || pyStartswith code "30" then
    { c with shenzhen := c.shenzhen ++ [code ++ " (" ++ name ++ ")"] }
  else if pyStartswith code "8" then
    { c with beijing := c.beijing ++ [code ++ " (" ++ name ++ ")"] }
  else if pyStartswith code "68" then
    { c with star := c.star ++ [code ++ " (" ++ name ++ ")"] }
  else c

/-- One iteration of the `for stock_tuple in stocks` loop: unwrap one level
of nesting, skip (and log) any entry whose length is not 2, unpack the
remaining entries and classify by code prefix.  Calling `startswith` on a
non-string code raises, modelled as `Except.error ()`. -/
def classifyStep (stock_info : List (String × String))
    (acc : Classified × List PyVal) (entry : PyVal) :
    Except Unit (Classified × List PyVal) :=
  if pyLen (unwrapEntry entry) ≠ 2 then
    Except.ok (acc.1, acc.2 ++ [unwrapEntry entry])
  else
    match (unpack2 (unwrapEntry entry)).1 with
    | PyVal.str s =>
        Except.ok
          (addToBucket acc.1 s (lookupName stock_info (PyVal.str s)), acc.2)
    | PyVal.tup _ => Except.error ()

/-- The loop of `classify_by_exchange` over all entries. -/
def classifyLoop (stock_info : List (String × String))
    (acc : Classified × List PyVal) :
    List PyVal → Except Unit (Classified × List PyVal)
  | [] => Except.ok acc
  | e :: rest =>
      match classifyStep stock_info acc e with
      | Except.error err => Except.error err
      | Except.ok acc' => classifyLoop stock_info acc' rest

/-- Source `classify_by_exchange(stocks, all_data)`: the four buckets together
with the list of skipped (logged) entries; `stock_info` is the snapshot's
code → name mapping. -/
def classify_by_exchange (stocks : List PyVal)
    (stock_info : List (String × String)) :
    Except Unit (Classified × List PyVal) :=
  classifyLoop stock_info (emptyClassified, []) stocks

/-- The four counters of `statistics`: rows with 涨跌幅 ≥ 9.5, ≤ −9.5,
≥ 5 and ≤ −5. -/
def statistics_counts (all_data : List SnapshotRow) : Nat × Nat × Nat × Nat :=
  ((all_data.filter (fun r => 9.5 ≤ r.pctChange)).length,
   (all_data.filter (fun r => r.pctChange ≤ -9.5)).length,
   (all_data.filter (fun r => 5 ≤ r.pctChange)).length,
   (all_data.filter (fun r => r.pctChange ≤ -5)).length)

/-- Source `statistics(all_data, stocks)`: one summary message per run. -/
def statistics (all_data : List SnapshotRow) : Msg :=
  let c := statistics_counts all_data
  Msg.stats c.1 c.2.1 c.2.2.1 c.2.2.2

/-- The strategy registry literal built in `prepare`. -/
def base_strategies : List (String × StrategyImpl) :=
  [("放量上涨", .enter_check_volume),
   ("均线多头", .keep_increasing_check),
   ("停机坪", .parking_apron_check),
   ("回踩年线", .backtrace_ma250_check),
   ("突破平台", .breakthrough_platform_check),
   ("无大幅回撤", .low_backtrace_increase_check),
   ("海龟交易法则", .turtle_trade_check_enter),
   ("高而窄的旗形", .high_tight_flag_check),
   ("放量跌停", .climax_limitdown_check)]

/-- The registry `prepare` hands to `process`: on weekday 0 the entry
`均线多头` is reassigned (to `keep_increasing.check`, the value it already
held); on any other weekday the registry is used as built. -/
def prepare_strategies (weekday : Nat) : List (String × StrategyImpl) :=
  if weekday == 0 then dictSet base_strategies "均线多头" .keep_increasing_check
  else base_strategies

/-- The per-strategy loop of `process`: run `check` for every registered
strategy in order, accumulating the `strategy_results` dictionary and the
alerts pushed along the way. -/
def runStrategies (end_date : Option Nat) (stocks_data : StocksData) :
    List (String × StrategyFun) →
    Except Unit (List (String × List String) × List Msg)
  | [] => Except.ok ([], [])
  | (name, f) :: rest =>
      match check end_date stocks_data name f with
      | Except.error e => Except.error e
      | Except.ok (codes, msgs) =>
          match runStrategies end_date stocks_data rest with
          | Except.error e => Except.error e
          | Except.ok (results, msgs') =>
              Except.ok ((name, codes) :: results, msgs ++ msgs')

/-- Reporting of one composite signal in `process`: a non-empty signal is
wrapped code-by-code into single-element tuples, classified, and pushed as
a classification message; an empty signal is pushed as the distinct
"不存在" message. -/
def compositeReport (label : String) (stocks : List String)
    (stock_info : List (String × String)) : Except Unit (List Msg) :=
  match stocks with
  | [] => Except.ok [Msg.notExist label]
  | _ :: _ =>
      match classify_by_exchange
          (stocks.map (fun code => PyVal.tup [PyVal.str code])) stock_info with
      | Except.error e => Except.error e
      | Except.ok (classified, _) => Except.ok [Msg.classification label classified]

/-- Source `process(stocks, strategies)` after the data fetch: run every strategy,
then report the three composite signals.  `stock_info` stands for the
snapshot re-fetched for classification. -/
def process (end_date : Option Nat) (stocks_data : StocksData)
    (strategies : List (String × StrategyFun))
    (stock_info : List (String × String)) : Except Unit (List Msg) :=
  match runStrategies end_date stocks_data strategies with
  | Except.error e => Except.error e
  | Except.ok (strategy_results, msgs1) =>
      match compositeReport "强烈趋势信号" (strong_trend_signal strategy_results) stock_info with
      | Except.error e => Except.error e
      | Except.ok m2 =>
          match compositeReport "回调低吸信号" (pullback_buy_signal strategy_results) stock_info with
          | Except.error e => Except.error e
          | Except.ok m3 =>
              match compositeReport "短线突破机会" (short_term_breakout_signal strategy_results) stock_info with
              | Except.error e => Except.error e
              | Except.ok m4 => Except.ok (msgs1 ++ m2 ++ m3 ++ m4)

/-- A well-formed `(code, name)` entry, the element shape of the `stocks`
list `prepare` builds from the snapshot. -/
def pairEntry (code : String) (name : String) : PyVal :=
  PyVal.tup [PyVal.str code, PyVal.str name]

/-- The formatted bucket line for a code: `"code (name)"`. -/
def fmtEntry (stock_info : List (String × String)) (code : String) : String :=
  code ++ " (" ++ lookupName stock_info (PyVal.str code) ++ ")"

/-- Synthetic universe with percent changes 9.6, −9.6, 5.1, −5.2, 0. -/
def ex_universe : List SnapshotRow :=
  [{ code := "000001", name := "平安银行", pctChange := 9.6 },
   { code := "000002", name := "万科A", pctChange := -9.6 },
   { code := "000003", name := "甲", pctChange := 5.1 },
   { code := "000004", name := "乙", pctChange := -5.2 },
   { code := "000005", name := "丙", pctChange := 0 }]

/-- Synthetic universe sitting exactly on the ±9.5 thresholds. -/
def ex_boundary : List SnapshotRow :=
  [{ code := "000006", name := "丁", pctChange := 9.5 },
   { code := "000007", name := "戊", pctChange := -9.5 }]

/-- Recognises the two message kinds `process` emits for one composite
signal label. -/
def isCompositeMsg (label : String) : Msg → Bool
  | .classification l _ => l == label
  | .notExist l => l == label
  | _ => false

/-- Every bucket only holds entries carrying that bucket's code prefix;
the invariant maintained by the classification loop. -/
def BucketInv (c : Classified) : Prop :=
  (∀ s ∈ c.shanghai, pyStartswith s "60" = true) ∧
  (∀ s ∈ c.shenzhen, pyStartswith s "00" = true ∨ pyStartswith s "30" = true) ∧
  (∀ s ∈ c.beijing, pyStartswith s "8" = true) ∧
  (∀ s ∈ c.star, pyStartswith s "68" = true)

section Lemmas

/-- A Python-style prefix of `l` is also a prefix of `l ++ r`. -/
theorem charsStartWith_append {p l r : List Char}
    (h : charsStartWith p l = true) : charsStartWith p (l ++ r) = true := by
  induction p generalizing l with
  | nil => rfl
  | cons x ps ih =>
      cases l with
      | nil => simp [charsStartWith] at h
      | cons c cs =>
          simp only [charsStartWith, Bool.and_eq_true] at h
          simp only [List.cons_append, charsStartWith, Bool.and_eq_true]
          exact ⟨h.1, ih h.2⟩

/-- A two-character prefix pins down the first two characters. -/
theorem charsStartWith_two {a b : Char} {l : List Char}
    (h : charsStartWith [a, b] l = true) : ∃ t, l = a :: b :: t := by
  match l with
  | [] => simp [charsStartWith] at h
  | [c] => simp [charsStartWith] at h
  | c :: d :: t =>
      simp only [charsStartWith, Bool.and_eq_true, beq_iff_eq] at h
      exact ⟨t, by simp [h.1, h.2.1]⟩

/-- A one-character prefix pins down the first character. -/
theorem charsStartWith_one {a : Char} {l : List Char}
    (h : charsStartWith [a] l = true) : ∃ t, l = a :: t := by
  match l with
  | [] => simp [charsStartWith] at h
  | c :: t =>
      simp only [charsStartWith, Bool.and_eq_true, beq_iff_eq] at h
      exact ⟨t, by simp [h.1]⟩

/-- Lemma: `startswith` survives appending a suffix to the subject string. -/
theorem pyStartswith_append (code suffix pre : String)
    (h : pyStartswith code pre = true) :
    pyStartswith (code ++ suffix) pre = true := by
  rw [pyStartswith] at h ⊢
  rw [String.data_append]
  exact charsStartWith_append h

/-- The formatted bucket line `"code (name)"` keeps any prefix of the
code. -/
theorem pyStartswith_entry {code : String} (name pre : String)
    (h : pyStartswith code pre = true) :
    pyStartswith (code ++ " (" ++ name ++ ")") pre = true :=
  pyStartswith_append _ ")" pre
    (pyStartswith_append _ name pre (pyStartswith_append code " (" pre h))

/-- The four prefix rules of `classify_by_exchange` are pairwise
incompatible on any one string. -/
theorem bucket_prefixes_disjoint {s : String} :
    (pyStartswith s "60" = true →
      pyStartswith s "00" ≠ true ∧ pyStartswith s "30" ≠ true ∧
      pyStartswith s "8" ≠ true ∧ pyStartswith s "68" ≠ true) ∧
    ((pyStartswith s "00" = true ∨ pyStartswith s "30" = true) →
      pyStartswith s "8" ≠ true ∧ pyStartswith s "68" ≠ true) ∧
    (pyStartswith s "8" = true → pyStartswith s "68" ≠ true) := by
  refine ⟨?_, ?_, ?_⟩
  · intro h60
    obtain ⟨t, ht⟩ := charsStartWith_two (l := s.data) h60
    refine ⟨?_, ?_, ?_, ?_⟩ <;> intro h
    · obtain ⟨t', ht'⟩ := charsStartWith_two (l := s.data) h
      rw [ht] at ht'
      injection ht' with h1 _
      exact absurd h1 (by decide)
    · obtain ⟨t', ht'⟩ := charsStartWith_two (l := s.data) h
      rw [ht] at ht'
      injection ht' with h1 _
      exact absurd h1 (by decide)
    · obtain ⟨t', ht'⟩ := charsStartWith_one (l := s.data) h
      rw [ht] at ht'
      injection ht' with h1 _
      exact absurd h1 (by decide)
    · obtain ⟨t', ht'⟩ := charsStartWith_two (l := s.data) h
      rw [ht] at ht'
      injection ht' with h1 h2
      injection h2 with h2 _
      exact absurd h2 (by decide)
  · intro hsz
    rcases hsz with h0 | h3
    · obtain ⟨t, ht⟩ := charsStartWith_two (l := s.data) h0
      constructor <;> intro h
      · obtain ⟨t', ht'⟩ := charsStartWith_one (l := s.data) h
        rw [ht] at ht'
        injection ht' with h1 _
        exact absurd h1 (by decide)
      · obtain ⟨t', ht'⟩ := charsStartWith_two (l := s.data) h
        rw [ht] at ht'
        injection ht' with h1 _
        exact absurd h1 (by decide)
    · obtain ⟨t, ht⟩ := charsStartWith_two (l := s.data) h3
      constructor <;> intro h
      · obtain ⟨t', ht'⟩ := charsStartWith_one (l := s.data) h
        rw [ht] at ht'
        injection ht' with h1 _
        exact absurd h1 (by decide)
      · obtain ⟨t', ht'⟩ := charsStartWith_two (l := s.data) h
        rw [ht] at ht'
        injection ht' with h1 _
        exact absurd h1 (by decide)
  · intro h8 h68
    obtain ⟨t, ht⟩ := charsStartWith_one (l := s.data) h8
    obtain ⟨t', ht'⟩ := charsStartWith_two (l := s.data) h68
    rw [ht] at ht'
    injection ht' with h1 _
    exact absurd h1 (by decide)

/-- Lemma: `strMem` is list membership. -/
theorem strMem_iff (c : String) (l : List String) : strMem c l = true ↔ c ∈ l := by
  induction l with
  | nil => simp [strMem]
  | cons x xs ih =>
      simp [strMem, ih, List.mem_cons]
      constructor
      · rintro (h | h)
        · exact Or.inl h.symm
        · exact Or.inr h
      · rintro (h | h)
        · exact Or.inl h.symm
        · exact Or.inr h

/-- The length of a filtered list is monotone in the predicate. -/
theorem length_filter_mono {α : Type} (p q : α → Bool)
    (h : ∀ x, p x = true → q x = true) (l : List α) :
    (l.filter p).length ≤ (l.filter q).length := by
  induction l with
  | nil => simp
  | cons x xs ih =>
      by_cases hp : p x = true
      · rw [List.filter_cons_of_pos hp, List.filter_cons_of_pos (h x hp)]
        simpa using ih
      · rw [List.filter_cons_of_neg hp]
        by_cases hq : q x = true
        · rw [List.filter_cons_of_pos hq]
          exact Nat.le_succ_of_le ih
        · rw [List.filter_cons_of_neg hq]
          exact ih

/-- Lemma: `addToBucket` preserves the bucket prefix invariant. -/
theorem bucketInv_addToBucket {c : Classified} (hc : BucketInv c)
    (code name : String) : BucketInv (addToBucket c code name) := by
  obtain ⟨h1, h2, h3, h4⟩ := hc
  have happ : ∀ (l : List String) (P : String → Prop), (∀ s ∈ l, P s) →
      P (code ++ " (" ++ name ++ ")") →
      ∀ s ∈ l ++ [code ++ " (" ++ name ++ ")"], P s := by
    intro l P hl hp s hs
    rcases List.mem_append.mp hs with hs | hs
    · exact hl s hs
    · rw [List.mem_singleton] at hs
      subst hs
      exact hp
  unfold addToBucket
  by_cases h60 : pyStartswith code "60" = true
  · rw [if_pos h60]
    exact ⟨happ _ _ h1 (pyStartswith_entry name _ h60), h2, h3, h4⟩
  · rw [if_neg h60]
    by_cases hsz : (pyStartswith code "00" || pyStartswith code "30") = true
    · rw [if_pos hsz]
      rcases Bool.or_eq_true _ _ ▸ hsz with h0 | h0
      · exact ⟨h1, happ _ _ h2 (Or.inl (pyStartswith_entry name _ h0)), h3, h4⟩
      · exact ⟨h1, happ _ _ h2 (Or.inr (pyStartswith_entry name _ h0)), h3, h4⟩
    · rw [if_neg hsz]
      by_cases h8 : pyStartswith code "8" = true
      · rw [if_pos h8]
        exact ⟨h1, h2, happ _ _ h3 (pyStartswith_entry name _ h8), h4⟩
      · rw [if_neg h8]
        by_cases h68 : pyStartswith code "68" = true
        · rw [if_pos h68]
          exact ⟨h1, h2, h3, happ _ _ h4 (pyStartswith_entry name _ h68)⟩
        · rw [if_neg h68]
          exact ⟨h1, h2, h3, h4⟩

/-- One classification step preserves the bucket prefix invariant. -/
theorem bucketInv_classifyStep {info : List (String × String)}
    {acc acc' : Classified × List PyVal} {e : PyVal}
    (h : classifyStep info acc e = Except.ok acc') (hc : BucketInv acc.1) :
    BucketInv acc'.1 := by
  unfold classifyStep at h
  by_cases hl : pyLen (unwrapEntry e) ≠ 2
  · rw [if_pos hl] at h
    injection h with h
    rw [← h]
    exact hc
  · rw [if_neg hl] at h
    cases hcode : (unpack2 (unwrapEntry e)).1 with
    | str s =>
        rw [hcode] at h
        injection h with h
        rw [← h]
        exact bucketInv_addToBucket hc s (lookupName info (PyVal.str s))
    | tup es =>
        rw [hcode] at h
        cases h

/-- The whole classification loop preserves the bucket prefix invariant. -/
theorem bucketInv_classifyLoop {info : List (String × String)} :
    ∀ {stocks : List PyVal} {acc res : Classified × List PyVal},
      classifyLoop info acc stocks = Except.ok res →
      BucketInv acc.1 → BucketInv res.1 := by
  intro stocks
  induction stocks with
  | nil =>
      intro acc res h hc
      injection h with h
      rw [← h]
      exact hc
  | cons e rest ih =>
      intro acc res h hc
      unfold classifyLoop at h
      cases hstep : classifyStep info acc e with
      | error err => rw [hstep] at h; cases h
      | ok acc' =>
          rw [hstep] at h
          exact ih h (bucketInv_classifyStep hstep hc)

/-- Entries whose unwrapped form does not have length 2 are all skipped:
the loop leaves every bucket untouched and appends each unwrapped entry to
the log, and never errors. -/
theorem classifyLoop_skipAll (info : List (String × String)) :
    ∀ (stocks : List PyVal) (acc : Classified × List PyVal),
      (∀ e ∈ stocks, pyLen (unwrapEntry e) ≠ 2) →
      classifyLoop info acc stocks =
        Except.ok (acc.1, acc.2 ++ stocks.map unwrapEntry) := by
  intro stocks
  induction stocks with
  | nil =>
      intro acc _
      simp [classifyLoop]
  | cons e rest ih =>
      intro acc h
      have he : pyLen (unwrapEntry e) ≠ 2 := h e (List.mem_cons_self e rest)
      have hstep : classifyStep info acc e =
          Except.ok (acc.1, acc.2 ++ [unwrapEntry e]) := by
        unfold classifyStep
        rw [if_pos he]
      unfold classifyLoop
      rw [hstep]
      show classifyLoop info (acc.1, acc.2 ++ [unwrapEntry e]) rest =
        Except.ok (acc.1, acc.2 ++ (e :: rest).map unwrapEntry)
      rw [ih _ (fun x hx => h x (List.mem_cons_of_mem e hx))]
      simp

/-- Lemma: `process` wraps composite-signal codes as `(code,)` with `code` a bare
string; every such entry is skipped, so classification returns four empty
buckets and logs every wrapped entry. -/
theorem classify_wrapped_codes (codes : List String)
    (info : List (String × String)) :
    classify_by_exchange (codes.map (fun code => PyVal.tup [PyVal.str code])) info =
      Except.ok (emptyClassified,
        codes.map (fun code => PyVal.tup [PyVal.str code])) := by
  unfold classify_by_exchange
  rw [classifyLoop_skipAll]
  · have hmap : (codes.map (fun code => PyVal.tup [PyVal.str code])).map unwrapEntry =
        codes.map (fun code => PyVal.tup [PyVal.str code]) := by
      rw [List.map_map]
      rfl
    rw [hmap]
    rfl
  · intro e he
    obtain ⟨c, _, hc⟩ := List.mem_map.mp he
    rw [← hc]
    simp [unwrapEntry, pyLen]

/-- One classification step on a well-formed `(code, name)` entry. -/
theorem classifyStep_pair (info : List (String × String))
    (acc : Classified × List PyVal) (a b : String) :
    classifyStep info acc (pairEntry a b) =
      Except.ok (addToBucket acc.1 a (lookupName info (PyVal.str a)), acc.2) := rfl

/-- The classification loop on well-formed `(code, name)` entries: each
bucket receives, in input order, the formatted entries of exactly the codes
its `elif` branch selects (earlier branches negated). -/
theorem classifyLoop_pairs (info : List (String × String)) :
    ∀ (ps : List (String × String)) (acc : Classified × List PyVal),
      classifyLoop info acc (ps.map (fun p => pairEntry p.1 p.2)) =
        Except.ok
          ({ shanghai := acc.1.shanghai ++
              (ps.filter (fun p => pyStartswith p.1 "60")).map
                (fun p => fmtEntry info p.1),
             shenzhen := acc.1.shenzhen ++
              (ps.filter (fun p => !pyStartswith p.1 "60" &&
                (pyStartswith p.1 "00" || pyStartswith p.1 "30"))).map
                (fun p => fmtEntry info p.1),
             beijing := acc.1.beijing ++
              (ps.filter (fun p => !pyStartswith p.1 "60" &&
                !(pyStartswith p.1 "00" || pyStartswith p.1 "30") &&
                pyStartswith p.1 "8")).map (fun p => fmtEntry info p.1),
             star := acc.1.star ++
              (ps.filter (fun p => !pyStartswith p.1 "60" &&
                !(pyStartswith p.1 "00" || pyStartswith p.1 "30") &&
                !pyStartswith p.1 "8" && pyStartswith p.1 "68")).map
                (fun p => fmtEntry info p.1) },
           acc.2) := by
  intro ps
  induction ps with
  | nil =>
      intro acc
      simp [classifyLoop]
  | cons p rest ih =>
      intro acc
      rw [List.map_cons]
      unfold classifyLoop
      rw [classifyStep_pair]
      show classifyLoop info
          (addToBucket acc.1 p.1 (lookupName info (PyVal.str p.1)), acc.2)
          (rest.map (fun p => pairEntry p.1 p.2)) = _
      rw [ih]
      unfold addToBucket fmtEntry
      cases h60 : pyStartswith p.1 "60"
      · cases h00 : pyStartswith p.1 "00"
        · cases h30 : pyStartswith p.1 "30"
          · cases h8 : pyStartswith p.1 "8"
            · cases h68 : pyStartswith p.1 "68"
              · simp [List.filter_cons, h60, h00, h30, h8, h68, List.append_assoc]
              · simp [List.filter_cons, h60, h00, h30, h8, h68, List.append_assoc]
            · simp [List.filter_cons, h60, h00, h30, h8, List.append_assoc]
          · simp [List.filter_cons, h60, h00, h30, List.append_assoc]
        · simp [List.filter_cons, h60, h00, List.append_assoc]
      · simp [List.filter_cons, h60, List.append_assoc]

/-- With duplicate-free keys, `dictGet` returns the stored value. -/
theorem dictGet_eq_of_mem {m : List (String × List String)} {k : String}
    {v : List String} (hnd : (m.map Prod.fst).Nodup) (h : (k, v) ∈ m) :
    dictGet m k = v := by
  induction m with
  | nil => simp at h
  | cons p rest ih =>
      rw [List.map_cons, List.nodup_cons] at hnd
      rcases List.mem_cons.mp h with h | h
      · cases h
        simp [dictGet]
      · have hne : ¬ p.1 = k := by
          intro he
          exact hnd.1 (he ▸ List.mem_map.mpr ⟨(k, v), h, rfl⟩)
        simp only [dictGet, beq_iff_eq, if_neg hne]
        exact ih hnd.2 h

/-- A key absent from the dictionary yields the empty list. -/
theorem dictGet_eq_nil_of_not_mem {m : List (String × List String)} {k : String}
    (h : k ∉ m.map Prod.fst) : dictGet m k = [] := by
  induction m with
  | nil => rfl
  | cons p rest ih =>
      have h1 : ¬ p.1 = k := by
        intro he
        exact h (List.mem_cons.mpr (Or.inl he.symm))
      simp only [dictGet, beq_iff_eq, if_neg h1]
      exact ih (fun hk => h (List.mem_cons.mpr (Or.inr hk)))

/-- Lemma: `dictGet` is stable under permuting a duplicate-free dictionary. -/
theorem dictGet_perm {m m' : List (String × List String)}
    (hnd : (m.map Prod.fst).Nodup) (hp : m.Perm m') (k : String) :
    dictGet m k = dictGet m' k := by
  have hnd' : (m'.map Prod.fst).Nodup := ((hp.map Prod.fst).nodup_iff).mp hnd
  by_cases hk : k ∈ m.map Prod.fst
  · obtain ⟨p, hpm, hpk⟩ := List.mem_map.mp hk
    have hkv : (k, p.2) ∈ m := by
      have hpe : p = (k, p.2) := by
        cases p
        simp only at hpk
        simp [hpk]
      exact hpe ▸ hpm
    rw [dictGet_eq_of_mem hnd hkv, dictGet_eq_of_mem hnd' (hp.mem_iff.mp hkv)]
  · rw [dictGet_eq_nil_of_not_mem hk,
      dictGet_eq_nil_of_not_mem (fun hk' => hk (((hp.map Prod.fst).mem_iff).mpr hk'))]

/-- Membership in `strong_trend_signal` is exactly membership in all three
constituent result sets. -/
theorem mem_strong_trend_iff (m : List (String × List String)) (c : String) :
    c ∈ strong_trend_signal m ↔
      c ∈ dictGet m "放量上涨" ∧ c ∈ dictGet m "均线多头" ∧
        c ∈ dictGet m "突破平台" := by
  simp [strong_trend_signal, List.mem_filter, strMem_iff, and_assoc]

/-- Membership in `pullback_buy_signal` is exactly membership in all three
constituent result sets. -/
theorem mem_pullback_iff (m : List (String × List String)) (c : String) :
    c ∈ pullback_buy_signal m ↔
      c ∈ dictGet m "回踩年线" ∧ c ∈ dictGet m "均线多头" ∧
        c ∈ dictGet m "无大幅回撤" := by
  simp [pullback_buy_signal, List.mem_filter, strMem_iff, and_assoc]

/-- Membership in `short_term_breakout_signal` is exactly membership in all
three constituent result sets. -/
theorem mem_breakout_iff (m : List (String × List String)) (c : String) :
    c ∈ short_term_breakout_signal m ↔
      c ∈ dictGet m "放量上涨" ∧ c ∈ dictGet m "停机坪" ∧
        c ∈ dictGet m "高而窄的旗形" := by
  simp [short_term_breakout_signal, List.mem_filter, strMem_iff, and_assoc]

/-- Lemma: `check` pushes no message on an empty match set and exactly the one
alert on a non-empty one. -/
theorem check_msgs {end_date : Option Nat}
    {stocks_data : List (String × List DailyBar)} {strategy : String}
    {f : StrategyFun} {codes : List String} {msgs : List Msg}
    (h : check end_date stocks_data strategy f = Except.ok (codes, msgs)) :
    (codes = [] → msgs = []) ∧
    (codes ≠ [] → msgs = [Msg.strategyAlert strategy codes]) := by
  unfold check at h
  split at h
  · cases h
  · split at h
    · rename_i results _ hl
      injection h with h
      rw [Prod.mk.injEq] at h
      obtain ⟨h1, h2⟩ := h
      subst h1
      subst h2
      constructor
      · intro hc
        rw [hc] at hl
        simp at hl
      · intro _
        rfl
    · rename_i results _ hl
      injection h with h
      rw [Prod.mk.injEq] at h
      obtain ⟨h1, h2⟩ := h
      subst h1
      subst h2
      constructor
      · intro _
        rfl
      · intro hc
        exfalso
        exact hc (List.length_eq_zero.mp (Nat.eq_zero_of_not_pos hl))

/-- Every message pushed by the per-strategy loop is a strategy alert. -/
theorem runStrategies_alerts {end_date : Option Nat}
    {stocks_data : List (String × List DailyBar)} :
    ∀ {strategies : List (String × StrategyFun)}
      {res : List (String × List String)} {msgs : List Msg},
      runStrategies end_date stocks_data strategies = Except.ok (res, msgs) →
      ∀ m ∈ msgs, ∃ n cs, m = Msg.strategyAlert n cs := by
  intro strategies
  induction strategies with
  | nil =>
      intro res msgs h m hm
      unfold runStrategies at h
      injection h with h
      rw [Prod.mk.injEq] at h
      rw [← h.2] at hm
      simp at hm
  | cons p rest ih =>
      intro res msgs h m hm
      obtain ⟨nm, f⟩ := p
      unfold runStrategies at h
      cases hc : check end_date stocks_data nm f with
      | error e => rw [hc] at h; cases h
      | ok v =>
          rw [hc] at h
          obtain ⟨codes, cmsgs⟩ := v
          cases hr : runStrategies end_date stocks_data rest with
          | error e => rw [hr] at h; cases h
          | ok w =>
              rw [hr] at h
              obtain ⟨res', msgs'⟩ := w
              injection h with h
              rw [Prod.mk.injEq] at h
              rw [← h.2] at hm
              rcases List.mem_append.mp hm with hm | hm
              · have hcm := check_msgs hc
                by_cases hcodes : codes = []
                · rw [hcm.1 hcodes] at hm
                  simp at hm
                · rw [hcm.2 hcodes] at hm
                  rw [List.mem_singleton] at hm
                  exact ⟨nm, codes, hm⟩
              · exact ih hr m hm

/-- The single message a composite report pushes: "does not exist" for an
empty signal, a classification of four empty buckets otherwise. -/
theorem compositeReport_eq {label : String} {stocks : List String}
    {info : List (String × String)} {ms : List Msg}
    (h : compositeReport label stocks info = Except.ok ms) :
    (stocks = [] → ms = [Msg.notExist label]) ∧
    (stocks ≠ [] → ms = [Msg.classification label emptyClassified]) := by
  unfold compositeReport at h
  cases stocks with
  | nil =>
      injection h with h
      exact ⟨fun _ => h.symm, fun hc => absurd rfl hc⟩
  | cons c cs =>
      rw [classify_wrapped_codes] at h
      injection h with h
      refine ⟨fun hc => ?_, fun _ => h.symm⟩
      cases hc

/-- A composite report contributes one message counted under its own label
and none under any other label. -/
theorem compositeReport_countP {label label' : String} {stocks : List String}
    {info : List (String × String)} {ms : List Msg}
    (h : compositeReport label stocks info = Except.ok ms) :
    ms.countP (isCompositeMsg label') = if label == label' then 1 else 0 := by
  have he := compositeReport_eq h
  cases stocks with
  | nil =>
      rw [he.1 rfl]
      simp [List.countP_cons, isCompositeMsg]
  | cons c cs =>
      rw [he.2 (by simp)]
      simp [List.countP_cons, isCompositeMsg]

/-- Strategy alerts are never counted as composite-signal messages. -/
theorem countP_alerts_zero {msgs : List Msg} {label : String}
    (h : ∀ m ∈ msgs, ∃ n cs, m = Msg.strategyAlert n cs) :
    msgs.countP (isCompositeMsg label) = 0 := by
  rw [List.countP_eq_zero]
  intro m hm
  obtain ⟨n, cs, hmeq⟩ := h m hm
  rw [hmeq]
  simp [isCompositeMsg]

/-- Any classification message found in a composite report carries four
empty buckets. -/
theorem compositeReport_classification_empty {label' : String}
    {stocks : List String} {info : List (String × String)} {ms : List Msg}
    {l : String} {b : Classified}
    (h : compositeReport label' stocks info = Except.ok ms)
    (hm : Msg.classification l b ∈ ms) : b = emptyClassified := by
  have he := compositeReport_eq h
  cases stocks with
  | nil =>
      rw [he.1 rfl] at hm
      simp at hm
  | cons c cs =>
      rw [he.2 (by simp)] at hm
      rw [List.mem_singleton] at hm
      injection hm with _ hb

/-- A successful `process` run decomposes into the strategy loop and the
three composite reports, in order. -/
theorem process_decomp {end_date : Option Nat}
    {stocks_data : List (String × List DailyBar)}
    {strategies : List (String × StrategyFun)}
    {info : List (String × String)} {msgs : List Msg}
    (h : process end_date stocks_data strategies info = Except.ok msgs) :
    ∃ results msgs1 m2 m3 m4,
      runStrategies end_date stocks_data strategies = Except.ok (results, msgs1) ∧
      compositeReport "强烈趋势信号" (strong_trend_signal results) info =
        Except.ok m2 ∧
      compositeReport "回调低吸信号" (pullback_buy_signal results) info =
        Except.ok m3 ∧
      compositeReport "短线突破机会" (short_term_breakout_signal results) info =
        Except.ok m4 ∧
      msgs = msgs1 ++ m2 ++ m3 ++ m4 := by
  unfold process at h
  split at h
  · cases h
  · rename_i v results msgs1 h1
    split at h
    · cases h
    · rename_i m2 h2
      split at h
      · cases h
      · rename_i m3 h3
        split at h
        · cases h
        · rename_i m4 h4
          injection h with h
          exact ⟨results, msgs1, m2, m3, m4, h1, h2, h3, h4, h.symm⟩

end Lemmas

section Theorems

/-- Claim C1: For every instrument whose series' first bar date is strictly
after a non-null cutoff, the filter returned by `check_enter` yields
`false`, and the result does not depend on the wrapped strategy function
(which is therefore never invoked on that pair). -/
theorem c1_point_in_time_filter (d : Nat) (f g : StrategyFun) (code : String)
    (bar : DailyBar) (rest : List DailyBar) (h : d < bar.date) :
    check_enter (some d) f (code, bar :: rest) = Except.ok false ∧
    check_enter (some d) f (code, bar :: rest) =
      check_enter (some d) g (code, bar :: rest) := by
  constructor
  · simp [check_enter, end_date_filter, h]
  · simp [check_enter, end_date_filter, h]

/-- Witness for C1 at cutoff 3 and a series whose first bar is dated 5. -/
theorem c1_point_in_time_filter_witness :
    3 < (DailyBar.mk 5).date ∧
    (check_enter (some 3) (fun _ _ _ => true) ("600519", [DailyBar.mk 5]) =
        Except.ok false ∧
      check_enter (some 3) (fun _ _ _ => true) ("600519", [DailyBar.mk 5]) =
        check_enter (some 3) (fun _ _ _ => false) ("600519", [DailyBar.mk 5])) :=
  ⟨by decide, c1_point_in_time_filter 3 (fun _ _ _ => true) (fun _ _ _ => false)
    "600519" (DailyBar.mk 5) [] (by decide)⟩

/-- Claim C6, counterexample: With the cutoff set and an empty series, the
filter does not return `false`: it fails (the source reads `iloc[0]` of an
empty frame, which raises), refuting the claim that it returns `false`
without raising. -/
theorem c6_counterexample :
    check_enter (some 5) (fun _ _ _ => true) ("000001", []) = Except.error () ∧
    check_enter (some 5) (fun _ _ _ => true) ("000001", []) ≠ Except.ok false := by
  constructor
  · rfl
  · simp [check_enter, end_date_filter]

/-- Claim C6, amended: When the cutoff is set and the series is empty, the
filter raises (modelled `Except.error ()`) before the strategy check is
ever consulted — the result is the same for every strategy function — and
in particular it does not return `false`. -/
theorem c6_empty_series_raises (d : Nat) (f : StrategyFun) (code : String) :
    check_enter (some d) f (code, []) = Except.error () ∧
    ∀ g : StrategyFun,
      check_enter (some d) f (code, []) = check_enter (some d) g (code, []) := by
  exact ⟨rfl, fun g => rfl⟩

/-- Claim C2: Each composite signal equals (as a set) the intersection of its
three declared constituent entries of the strategy-result mapping; a
strategy name missing from the mapping contributes the empty set without
error; and membership in every composite is invariant under permuting the
order the strategies were evaluated in (any reordering of a duplicate-free
result mapping). -/
theorem c2_composite_signals (m m' : List (String × List String)) (c k : String)
    (hnd : (m.map Prod.fst).Nodup) (hp : m.Perm m')
    (hk : k ∉ m.map Prod.fst) :
    (c ∈ strong_trend_signal m ↔
      c ∈ dictGet m "放量上涨" ∧ c ∈ dictGet m "均线多头" ∧
        c ∈ dictGet m "突破平台") ∧
    (c ∈ pullback_buy_signal m ↔
      c ∈ dictGet m "回踩年线" ∧ c ∈ dictGet m "均线多头" ∧
        c ∈ dictGet m "无大幅回撤") ∧
    (c ∈ short_term_breakout_signal m ↔
      c ∈ dictGet m "放量上涨" ∧ c ∈ dictGet m "停机坪" ∧
        c ∈ dictGet m "高而窄的旗形") ∧
    dictGet m k = [] ∧
    (c ∈ strong_trend_signal m ↔ c ∈ strong_trend_signal m') ∧
    (c ∈ pullback_buy_signal m ↔ c ∈ pullback_buy_signal m') ∧
    (c ∈ short_term_breakout_signal m ↔ c ∈ short_term_breakout_signal m') := by
  refine ⟨mem_strong_trend_iff m c, mem_pullback_iff m c, mem_breakout_iff m c,
    dictGet_eq_nil_of_not_mem hk, ?_, ?_, ?_⟩
  · rw [mem_strong_trend_iff, mem_strong_trend_iff,
      dictGet_perm hnd hp, dictGet_perm hnd hp, dictGet_perm hnd hp]
  · rw [mem_pullback_iff, mem_pullback_iff,
      dictGet_perm hnd hp, dictGet_perm hnd hp, dictGet_perm hnd hp]
  · rw [mem_breakout_iff, mem_breakout_iff,
      dictGet_perm hnd hp, dictGet_perm hnd hp, dictGet_perm hnd hp]

/-- Witness for C2 on a three-strategy mapping and its reversal. -/
theorem c2_composite_signals_witness :
    (([("放量上涨", ["600519", "000001"]), ("均线多头", ["600519"]),
        ("突破平台", ["600519"])].map Prod.fst).Nodup ∧
      [("放量上涨", ["600519", "000001"]), ("均线多头", ["600519"]),
        ("突破平台", ["600519"])].Perm
        [("突破平台", ["600519"]), ("均线多头", ["600519"]),
          ("放量上涨", ["600519", "000001"])] ∧
      "海龟交易法则" ∉ ([("放量上涨", ["600519", "000001"]),
        ("均线多头", ["600519"]), ("突破平台", ["600519"])].map Prod.fst)) ∧
    (("600519" ∈ strong_trend_signal
        [("放量上涨", ["600519", "000001"]), ("均线多头", ["600519"]),
          ("突破平台", ["600519"])] ↔
      "600519" ∈ dictGet [("放量上涨", ["600519", "000001"]),
          ("均线多头", ["600519"]), ("突破平台", ["600519"])] "放量上涨" ∧
        "600519" ∈ dictGet [("放量上涨", ["600519", "000001"]),
          ("均线多头", ["600519"]), ("突破平台", ["600519"])] "均线多头" ∧
        "600519" ∈ dictGet [("放量上涨", ["600519", "000001"]),
          ("均线多头", ["600519"]), ("突破平台", ["600519"])] "突破平台") ∧
      ("600519" ∈ pullback_buy_signal
        [("放量上涨", ["600519", "000001"]), ("均线多头", ["600519"]),
          ("突破平台", ["600519"])] ↔
      "600519" ∈ dictGet [("放量上涨", ["600519", "000001"]),
          ("均线多头", ["600519"]), ("突破平台", ["600519"])] "回踩年线" ∧
        "600519" ∈ dictGet [("放量上涨", ["600519", "000001"]),
          ("均线多头", ["600519"]), ("突破平台", ["600519"])] "均线多头" ∧
        "600519" ∈ dictGet [("放量上涨", ["600519", "000001"]),
          ("均线多头", ["600519"]), ("突破平台", ["600519"])] "无大幅回撤") ∧
      ("600519" ∈ short_term_breakout_signal
        [("放量上涨", ["600519", "000001"]), ("均线多头", ["600519"]),
          ("突破平台", ["600519"])] ↔
      "600519" ∈ dictGet [("放量上涨", ["600519", "000001"]),
          ("均线多头", ["600519"]), ("突破平台", ["600519"])] "放量上涨" ∧
        "600519" ∈ dictGet [("放量上涨", ["600519", "000001"]),
          ("均线多头", ["600519"]), ("突破平台", ["600519"])] "停机坪" ∧
        "600519" ∈ dictGet [("放量上涨", ["600519", "000001"]),
          ("均线多头", ["600519"]), ("突破平台", ["600519"])] "高而窄的旗形") ∧
      dictGet [("放量上涨", ["600519", "000001"]), ("均线多头", ["600519"]),
        ("突破平台", ["600519"])] "海龟交易法则" = [] ∧
      ("600519" ∈ strong_trend_signal
          [("放量上涨", ["600519", "000001"]), ("均线多头", ["600519"]),
            ("突破平台", ["600519"])] ↔
        "600519" ∈ strong_trend_signal
          [("突破平台", ["600519"]), ("均线多头", ["600519"]),
            ("放量上涨", ["600519", "000001"])]) ∧
      ("600519" ∈ pullback_buy_signal
          [("放量上涨", ["600519", "000001"]), ("均线多头", ["600519"]),
            ("突破平台", ["600519"])] ↔
        "600519" ∈ pullback_buy_signal
          [("突破平台", ["600519"]), ("均线多头", ["600519"]),
            ("放量上涨", ["600519", "000001"])]) ∧
      ("600519" ∈ short_term_breakout_signal
          [("放量上涨", ["600519", "000001"]), ("均线多头", ["600519"]),
            ("突破平台", ["600519"])] ↔
        "600519" ∈ short_term_breakout_signal
          [("突破平台", ["600519"]), ("均线多头", ["600519"]),
            ("放量上涨", ["600519", "000001"])])) :=
  ⟨⟨by decide, by decide, by decide⟩,
    c2_composite_signals
      [("放量上涨", ["600519", "000001"]), ("均线多头", ["600519"]),
        ("突破平台", ["600519"])]
      [("突破平台", ["600519"]), ("均线多头", ["600519"]),
        ("放量上涨", ["600519", "000001"])]
      "600519" "海龟交易法则" (by decide) (by decide) (by decide)⟩

/-- Claim C7: `statistics` counts with inclusive thresholds: on percent
changes [9.6, −9.6, 5.1, −5.2, 0] it reports 1/1/2/2, values exactly at
±9.5 are counted, and for every universe the limit counters are bounded by
the ±5% counters (superset property). -/
theorem c7_statistics :
    statistics ex_universe = Msg.stats 1 1 2 2 ∧
    statistics ex_boundary = Msg.stats 1 1 1 1 ∧
    ∀ all_data : List SnapshotRow,
      (statistics_counts all_data).1 ≤ (statistics_counts all_data).2.2.1 ∧
      (statistics_counts all_data).2.1 ≤ (statistics_counts all_data).2.2.2 := by
  refine ⟨by norm_num [statistics, statistics_counts, ex_universe, List.filter],
    by norm_num [statistics, statistics_counts, ex_boundary, List.filter], ?_⟩
  intro all_data
  constructor
  · apply length_filter_mono
    intro r hr
    rw [decide_eq_true_iff] at hr ⊢
    linarith
  · apply length_filter_mono
    intro r hr
    rw [decide_eq_true_iff] at hr ⊢
    linarith

/-- Claim C10: The weekday-0 registry override leaves the set of strategy
names untouched: for every weekday the registry maps exactly the same nine
names, in the same order, as the registry literal. -/
theorem c10_weekday_override (weekday : Nat) :
    (prepare_strategies weekday).map Prod.fst =
      ["放量上涨", "均线多头", "停机坪", "回踩年线", "突破平台", "无大幅回撤",
       "海龟交易法则", "高而窄的旗形", "放量跌停"] ∧
    (prepare_strategies weekday).map Prod.fst = base_strategies.map Prod.fst := by
  unfold prepare_strategies
  split <;> exact ⟨rfl, rfl⟩

/-- Claim C3: `classify_by_exchange` puts no formatted entry into two
different buckets (the prefix rules are mutually exclusive), and on the
fixed examples it maps 600519 to Shanghai, 000001 and 300750 to
Shenzhen/ChiNext, 830799 to Beijing and 688981 to STAR. -/
theorem c3_exchange_buckets (stocks : List PyVal)
    (info : List (String × String)) (c : Classified) (log : List PyVal)
    (s : String)
    (h : classify_by_exchange stocks info = Except.ok (c, log)) :
    ((s ∈ c.shanghai → s ∉ c.shenzhen ∧ s ∉ c.beijing ∧ s ∉ c.star) ∧
     (s ∈ c.shenzhen → s ∉ c.beijing ∧ s ∉ c.star) ∧
     (s ∈ c.beijing → s ∉ c.star)) ∧
    classify_by_exchange
        [pairEntry "600519" "贵州茅台", pairEntry "000001" "平安银行",
         pairEntry "300750" "宁德时代", pairEntry "830799" "艾融软件",
         pairEntry "688981" "中芯国际"]
        [("600519", "贵州茅台"), ("000001", "平安银行"), ("300750", "宁德时代"),
         ("830799", "艾融软件"), ("688981", "中芯国际")] =
      Except.ok
        ({ shanghai := ["600519 (贵州茅台)"],
           shenzhen := ["000001 (平安银行)", "300750 (宁德时代)"],
           beijing := ["830799 (艾融软件)"],
           star := ["688981 (中芯国际)"] }, []) := by
  have hinv : BucketInv c := by
    unfold classify_by_exchange at h
    exact bucketInv_classifyLoop h (by simp [BucketInv, emptyClassified])
  obtain ⟨h1, h2, h3, h4⟩ := hinv
  refine ⟨⟨?_, ?_, ?_⟩, rfl⟩
  · intro hs
    have hp := h1 s hs
    refine ⟨fun hx => ?_, fun hx => ?_, fun hx => ?_⟩
    · rcases h2 s hx with h0 | h0
      · exact (bucket_prefixes_disjoint.1 hp).1 h0
      · exact (bucket_prefixes_disjoint.1 hp).2.1 h0
    · exact (bucket_prefixes_disjoint.1 hp).2.2.1 (h3 s hx)
    · exact (bucket_prefixes_disjoint.1 hp).2.2.2 (h4 s hx)
  · intro hs
    have hp := h2 s hs
    refine ⟨fun hx => ?_, fun hx => ?_⟩
    · exact (bucket_prefixes_disjoint.2.1 hp).1 (h3 s hx)
    · exact (bucket_prefixes_disjoint.2.1 hp).2 (h4 s hx)
  · intro hs hx
    exact bucket_prefixes_disjoint.2.2 (h3 s hs) (h4 s hx)

/-- Witness for C3 on the five fixed example codes. -/
theorem c3_exchange_buckets_witness :
    classify_by_exchange
        [pairEntry "600519" "贵州茅台", pairEntry "000001" "平安银行",
         pairEntry "300750" "宁德时代", pairEntry "830799" "艾融软件",
         pairEntry "688981" "中芯国际"]
        [("600519", "贵州茅台"), ("000001", "平安银行"), ("300750", "宁德时代"),
         ("830799", "艾融软件"), ("688981", "中芯国际")] =
      Except.ok
        ({ shanghai := ["600519 (贵州茅台)"],
           shenzhen := ["000001 (平安银行)", "300750 (宁德时代)"],
           beijing := ["830799 (艾融软件)"],
           star := ["688981 (中芯国际)"] }, []) ∧
    (("600519 (贵州茅台)" ∈
        ({ shanghai := ["600519 (贵州茅台)"],
           shenzhen := ["000001 (平安银行)", "300750 (宁德时代)"],
           beijing := ["830799 (艾融软件)"],
           star := ["688981 (中芯国际)"] } : Classified).shanghai →
      "600519 (贵州茅台)" ∉
        ({ shanghai := ["600519 (贵州茅台)"],
           shenzhen := ["000001 (平安银行)", "300750 (宁德时代)"],
           beijing := ["830799 (艾融软件)"],
           star := ["688981 (中芯国际)"] } : Classified).shenzhen ∧
      "600519 (贵州茅台)" ∉
        ({ shanghai := ["600519 (贵州茅台)"],
           shenzhen := ["000001 (平安银行)", "300750 (宁德时代)"],
           beijing := ["830799 (艾融软件)"],
           star := ["688981 (中芯国际)"] } : Classified).beijing ∧
      "600519 (贵州茅台)" ∉
        ({ shanghai := ["600519 (贵州茅台)"],
           shenzhen := ["000001 (平安银行)", "300750 (宁德时代)"],
           beijing := ["830799 (艾融软件)"],
           star := ["688981 (中芯国际)"] } : Classified).star)) :=
  ⟨rfl,
    ((c3_exchange_buckets
      [pairEntry "600519" "贵州茅台", pairEntry "000001" "平安银行",
       pairEntry "300750" "宁德时代", pairEntry "830799" "艾融软件",
       pairEntry "688981" "中芯国际"]
      [("600519", "贵州茅台"), ("000001", "平安银行"), ("300750", "宁德时代"),
       ("830799", "艾融软件"), ("688981", "中芯国际")]
      { shanghai := ["600519 (贵州茅台)"],
        shenzhen := ["000001 (平安银行)", "300750 (宁德时代)"],
        beijing := ["830799 (艾融软件)"],
        star := ["688981 (中芯国际)"] } []
      "600519 (贵州茅台)" rfl).1).1⟩

/-- Claim C9, counterexample: Feeding the codes in descending order yields a
Shanghai bucket in that same descending order: 600520 is listed before
600519, so the bucket is not sorted by ascending code. -/
theorem c9_counterexample :
    classify_by_exchange [pairEntry "600520" "乙", pairEntry "600519" "甲"] [] =
      Except.ok
        ({ shanghai := ["600520 (未知名称)", "600519 (未知名称)"],
           shenzhen := [], beijing := [], star := [] }, []) ∧
    ["600520 (未知名称)", "600519 (未知名称)"] ≠
      ["600519 (未知名称)", "600520 (未知名称)"] :=
  ⟨rfl, by decide⟩

/-- Claim C9, amended: Within each exchange bucket the output order is the
input order, not ascending code order: each bucket is exactly the formatted
entries of the codes its `elif` branch selects, filtered out of the input
sequence in input order. -/
theorem c9_bucket_input_order (ps : List (String × String))
    (info : List (String × String)) :
    classify_by_exchange (ps.map (fun p => pairEntry p.1 p.2)) info =
      Except.ok
        ({ shanghai := (ps.filter (fun p => pyStartswith p.1 "60")).map
            (fun p => fmtEntry info p.1),
           shenzhen := (ps.filter (fun p => !pyStartswith p.1 "60" &&
            (pyStartswith p.1 "00" || pyStartswith p.1 "30"))).map
              (fun p => fmtEntry info p.1),
           beijing := (ps.filter (fun p => !pyStartswith p.1 "60" &&
            !(pyStartswith p.1 "00" || pyStartswith p.1 "30") &&
            pyStartswith p.1 "8")).map (fun p => fmtEntry info p.1),
           star := (ps.filter (fun p => !pyStartswith p.1 "60" &&
            !(pyStartswith p.1 "00" || pyStartswith p.1 "30") &&
            !pyStartswith p.1 "8" && pyStartswith p.1 "68")).map
              (fun p => fmtEntry info p.1) }, []) := by
  unfold classify_by_exchange
  rw [classifyLoop_pairs]
  rfl

/-- Claim C5, counterexample: A single-element tuple wrapping a bare code is
not accepted: with the Shanghai code 600519 present in the snapshot, the
entry `("600519",)` is skipped into the log and every bucket stays empty,
instead of being unwrapped and classified. -/
theorem c5_counterexample :
    classify_by_exchange [PyVal.tup [PyVal.str "600519"]]
        [("600519", "贵州茅台")] =
      Except.ok (emptyClassified, [PyVal.tup [PyVal.str "600519"]]) ∧
    emptyClassified.shanghai = [] :=
  ⟨rfl, rfl⟩

/-- Claim C5, amended: `classify_by_exchange` accepts two-element
`(code, name)` entries and single-element tuples wrapping such a two-element
tuple, unwrapping one level of nesting; a single-element tuple wrapping a
bare code is malformed like any entry whose unwrapped form does not have
length 2: every such entry is skipped and logged, and no input consisting of
such entries ever raises. -/
theorem c5_entry_shapes (info : List (String × String))
    (acc : Classified × List PyVal) (code name : String) (e : PyVal)
    (stocks : List PyVal)
    (he : pyLen (unwrapEntry e) ≠ 2)
    (hs : ∀ x ∈ stocks, pyLen (unwrapEntry x) ≠ 2) :
    classifyStep info acc (pairEntry code name) =
      Except.ok (addToBucket acc.1 code (lookupName info (PyVal.str code)),
        acc.2) ∧
    classifyStep info acc (PyVal.tup [pairEntry code name]) =
      Except.ok (addToBucket acc.1 code (lookupName info (PyVal.str code)),
        acc.2) ∧
    classifyStep info acc e = Except.ok (acc.1, acc.2 ++ [unwrapEntry e]) ∧
    classify_by_exchange stocks info =
      Except.ok (emptyClassified, stocks.map unwrapEntry) := by
  refine ⟨rfl, rfl, ?_, ?_⟩
  · unfold classifyStep
    rw [if_pos he]
  · exact classifyLoop_skipAll info stocks (emptyClassified, []) hs

/-- Witness for C5: a `(code, name)` pair, its wrapped form, a skipped
3-character string, and a skipped list of wrapped bare codes. -/
theorem c5_entry_shapes_witness :
    (pyLen (unwrapEntry (PyVal.str "abc")) ≠ 2 ∧
      ∀ x ∈ [PyVal.tup [PyVal.str "000001"]], pyLen (unwrapEntry x) ≠ 2) ∧
    (classifyStep [] (emptyClassified, []) (pairEntry "600519" "贵州茅台") =
      Except.ok (addToBucket emptyClassified "600519"
        (lookupName [] (PyVal.str "600519")), []) ∧
    classifyStep [] (emptyClassified, [])
        (PyVal.tup [pairEntry "600519" "贵州茅台"]) =
      Except.ok (addToBucket emptyClassified "600519"
        (lookupName [] (PyVal.str "600519")), []) ∧
    classifyStep [] (emptyClassified, []) (PyVal.str "abc") =
      Except.ok (emptyClassified, [] ++ [unwrapEntry (PyVal.str "abc")]) ∧
    classify_by_exchange [PyVal.tup [PyVal.str "000001"]] [] =
      Except.ok (emptyClassified,
        [PyVal.tup [PyVal.str "000001"]].map unwrapEntry)) :=
  ⟨⟨by decide, by decide⟩,
    c5_entry_shapes [] (emptyClassified, []) "600519" "贵州茅台"
      (PyVal.str "abc") [PyVal.tup [PyVal.str "000001"]]
      (by decide) (by decide)⟩

/-- Claim C4: Every classification message of a successful `process` run
carries four empty buckets: `process` wraps each composite code as a
single-element tuple containing a bare string, and `classify_by_exchange`
skips every such entry (its unwrap step only fires on a single-element
tuple whose element is itself a tuple), as the second conjunct states for
an arbitrary code list. -/
theorem c4_process_buckets_empty (end_date : Option Nat)
    (stocks_data : StocksData) (strategies : List (String × StrategyFun))
    (info : List (String × String)) (msgs : List Msg) (label : String)
    (bks : Classified) (codes : List String)
    (hp : process end_date stocks_data strategies info = Except.ok msgs)
    (hm : Msg.classification label bks ∈ msgs) :
    bks = emptyClassified ∧
    classify_by_exchange
        (codes.map (fun code => PyVal.tup [PyVal.str code])) info =
      Except.ok (emptyClassified,
        codes.map (fun code => PyVal.tup [PyVal.str code])) := by
  refine ⟨?_, classify_wrapped_codes codes info⟩
  obtain ⟨results, msgs1, m2, m3, m4, h1, h2, h3, h4, heq⟩ := process_decomp hp
  rw [heq] at hm
  rcases List.mem_append.mp hm with hm | hm
  · rcases List.mem_append.mp hm with hm | hm
    · rcases List.mem_append.mp hm with hm | hm
      · obtain ⟨n, cs, habs⟩ := runStrategies_alerts h1 _ hm
        exact Msg.noConfusion habs
      · exact compositeReport_classification_empty h2 hm
    · exact compositeReport_classification_empty h3 hm
  · exact compositeReport_classification_empty h4 hm

/-- Witness for C4 on a one-stock universe where all three constituent
strategies of the strong-trend signal match. -/
theorem c4_process_buckets_empty_witness :
    (process none [("600519", [DailyBar.mk 1])]
        [("放量上涨", fun _ _ _ => true), ("均线多头", fun _ _ _ => true),
         ("突破平台", fun _ _ _ => true)] [] =
      Except.ok
        [Msg.strategyAlert "放量上涨" ["600519"],
         Msg.strategyAlert "均线多头" ["600519"],
         Msg.strategyAlert "突破平台" ["600519"],
         Msg.classification "强烈趋势信号" emptyClassified,
         Msg.notExist "回调低吸信号", Msg.notExist "短线突破机会"] ∧
      Msg.classification "强烈趋势信号" emptyClassified ∈
        [Msg.strategyAlert "放量上涨" ["600519"],
         Msg.strategyAlert "均线多头" ["600519"],
         Msg.strategyAlert "突破平台" ["600519"],
         Msg.classification "强烈趋势信号" emptyClassified,
         Msg.notExist "回调低吸信号", Msg.notExist "短线突破机会"]) ∧
    (emptyClassified = emptyClassified ∧
      classify_by_exchange
          (["600519"].map (fun code => PyVal.tup [PyVal.str code])) [] =
        Except.ok (emptyClassified,
          ["600519"].map (fun code => PyVal.tup [PyVal.str code]))) :=
  ⟨⟨rfl, by decide⟩,
    c4_process_buckets_empty none [("600519", [DailyBar.mk 1])]
      [("放量上涨", fun _ _ _ => true), ("均线多头", fun _ _ _ => true),
       ("突破平台", fun _ _ _ => true)] []
      [Msg.strategyAlert "放量上涨" ["600519"],
       Msg.strategyAlert "均线多头" ["600519"],
       Msg.strategyAlert "突破平台" ["600519"],
       Msg.classification "强烈趋势信号" emptyClassified,
       Msg.notExist "回调低吸信号", Msg.notExist "短线突破机会"]
      "强烈趋势信号" emptyClassified ["600519"] rfl (by decide)⟩

/-- Claim C8: `check` pushes exactly one alert, listing the matched codes
under the strategy name, iff its match set is non-empty (and nothing when
empty); `process` pushes exactly one message per composite signal — counted
under each composite label the message count is one — and that message is a
classification when the composite is non-empty and the distinct 不存在
message when it is empty. -/
theorem c8_message_policy (end_date : Option Nat) (stocks_data : StocksData)
    (strategy : String) (f : StrategyFun) (codes : List String)
    (msgsC : List Msg) (strategies : List (String × StrategyFun))
    (info : List (String × String)) (msgs : List Msg) (label : String)
    (sig : List String) (ms : List Msg)
    (hc : check end_date stocks_data strategy f = Except.ok (codes, msgsC))
    (hp : process end_date stocks_data strategies info = Except.ok msgs)
    (hr : compositeReport label sig info = Except.ok ms) :
    (codes = [] → msgsC = []) ∧
    (codes ≠ [] → msgsC = [Msg.strategyAlert strategy codes]) ∧
    msgs.countP (isCompositeMsg "强烈趋势信号") = 1 ∧
    msgs.countP (isCompositeMsg "回调低吸信号") = 1 ∧
    msgs.countP (isCompositeMsg "短线突破机会") = 1 ∧
    (sig = [] → ms = [Msg.notExist label]) ∧
    (sig ≠ [] → ms = [Msg.classification label emptyClassified]) := by
  obtain ⟨hc1, hc2⟩ := check_msgs hc
  obtain ⟨results, msgs1, m2, m3, m4, h1, h2, h3, h4, heq⟩ := process_decomp hp
  have ha := runStrategies_alerts h1
  refine ⟨hc1, hc2, ?_, ?_, ?_,
    (compositeReport_eq hr).1, (compositeReport_eq hr).2⟩
  · rw [heq, List.countP_append, List.countP_append, List.countP_append,
      countP_alerts_zero ha, compositeReport_countP h2,
      compositeReport_countP h3, compositeReport_countP h4]
    decide
  · rw [heq, List.countP_append, List.countP_append, List.countP_append,
      countP_alerts_zero ha, compositeReport_countP h2,
      compositeReport_countP h3, compositeReport_countP h4]
    decide
  · rw [heq, List.countP_append, List.countP_append, List.countP_append,
      countP_alerts_zero ha, compositeReport_countP h2,
      compositeReport_countP h3, compositeReport_countP h4]
    decide

/-- Witness for C8 on a one-stock universe: one matching strategy, a full
`process` run, and an empty composite report. -/
theorem c8_message_policy_witness :
    (check none [("600519", [DailyBar.mk 1])] "放量上涨" (fun _ _ _ => true) =
      Except.ok (["600519"], [Msg.strategyAlert "放量上涨" ["600519"]]) ∧
      compositeReport "回调低吸信号" [] [] =
        Except.ok [Msg.notExist "回调低吸信号"]) ∧
    ((["600519"] = ([] : List String) →
        [Msg.strategyAlert "放量上涨" ["600519"]] = ([] : List Msg)) ∧
      (["600519"] ≠ ([] : List String) →
        [Msg.strategyAlert "放量上涨" ["600519"]] =
          [Msg.strategyAlert "放量上涨" ["600519"]]) ∧
      List.countP (isCompositeMsg "强烈趋势信号")
        [Msg.strategyAlert "放量上涨" ["600519"],
         Msg.strategyAlert "均线多头" ["600519"],
         Msg.strategyAlert "突破平台" ["600519"],
         Msg.classification "强烈趋势信号" emptyClassified,
         Msg.notExist "回调低吸信号", Msg.notExist "短线突破机会"] = 1 ∧
      List.countP (isCompositeMsg "回调低吸信号")
        [Msg.strategyAlert "放量上涨" ["600519"],
         Msg.strategyAlert "均线多头" ["600519"],
         Msg.strategyAlert "突破平台" ["600519"],
         Msg.classification "强烈趋势信号" emptyClassified,
         Msg.notExist "回调低吸信号", Msg.notExist "短线突破机会"] = 1 ∧
      List.countP (isCompositeMsg "短线突破机会")
        [Msg.strategyAlert "放量上涨" ["600519"],
         Msg.strategyAlert "均线多头" ["600519"],
         Msg.strategyAlert "突破平台" ["600519"],
         Msg.classification "强烈趋势信号" emptyClassified,
         Msg.notExist "回调低吸信号", Msg.notExist "短线突破机会"] = 1 ∧
      (([] : List String) = [] →
        [Msg.notExist "回调低吸信号"] = [Msg.notExist "回调低吸信号"]) ∧
      (([] : List String) ≠ [] →
        [Msg.notExist "回调低吸信号"] =
          [Msg.classification "回调低吸信号" emptyClassified])) :=
  ⟨⟨rfl, rfl⟩,
    c8_message_policy none [("600519", [DailyBar.mk 1])] "放量上涨"
      (fun _ _ _ => true) ["600519"]
      [Msg.strategyAlert "放量上涨" ["600519"]]
      [("放量上涨", fun _ _ _ => true), ("均线多头", fun _ _ _ => true),
       ("突破平台", fun _ _ _ => true)] []
      [Msg.strategyAlert "放量上涨" ["600519"],
       Msg.strategyAlert "均线多头" ["600519"],
       Msg.strategyAlert "突破平台" ["600519"],
       Msg.classification "强烈趋势信号" emptyClassified,
       Msg.notExist "回调低吸信号", Msg.notExist "短线突破机会"]
      "回调低吸信号" [] [Msg.notExist "回调低吸信号"] rfl rfl rfl⟩

end Theorems

end WorkFlow
